import Mathlib

/-!
Verification of the Post CRUD service contract of a minimal blog backend.

The persisted entity is a `Post` (title, optional author, optional contents,
tags, timestamps). The service layer offers
create/list/filter/sort/get/update/delete operations over a document store.
The service and model sources themselves are not in the repository snapshot
(only their test suite and callers are), so every operation below is
modelled from the specification's description of the service contract,
with the document store made explicit as a `DB` state threaded through the
operations.  Timestamps and identifiers are modelled as natural numbers;
the database state carries a strictly advancing clock (one tick per
operation, reflecting that successive calls happen at later wall-clock
times) and a counter from which fresh identifiers are drawn.
-/

namespace BlogService

/-- Modelled from the spec: the Post entity of `src/db/models/post.js`
(absent from the snapshot).  `title` is the required text field;
`author` and `contents` are optional; `tags` is an ordered sequence of
labels; `createdAt` and `updatedAt` are timestamps; `id` is the
system-generated identifier. -/
structure Post where
  id : Nat
  title : String
  author : Option String
  contents : Option String
  tags : List String
  createdAt : Nat
  updatedAt : Nat
deriving Repr, DecidableEq

/-- A partial field set as passed by callers to `createPost` and
`updatePost`: each field is either given (`some`) or unspecified
(`none`). -/
structure PostFields where
  title : Option String := none
  author : Option String := none
  contents : Option String := none
  tags : Option (List String) := none
deriving Repr, DecidableEq

/-- The raised-error taxonomy of the service: a `ValidationError`
carrying a message.  Storage/connectivity errors are outside the model
(the document store is modelled as always reachable). -/
inductive ServiceError where
  | validationError (message : String)
deriving Repr, DecidableEq

/-- The document store state: the persisted posts, the counter supplying
fresh identifiers, and the current clock value.  Every operation happens
at the state's clock time and then advances the clock, so later calls
carry strictly later timestamps. -/
structure DB where
  posts : List Post
  nextId : Nat
  clock : Nat
deriving Repr, DecidableEq

/-- The validation message produced when `title` is absent or empty,
shaped as the test suite observes it (it asserts the message contains
the fragment "`title` is required"). -/
def titleRequiredMessage : String :=
  "Post validation failed: title: Path `title` is required."

/-- Modelled from the spec: `createPost(fields)` of
`src/services/post.js` (absent from the snapshot).  Fails with a
ValidationError if `title` is absent or empty; otherwise persists one
new Post with a system-assigned id, `createdAt` and `updatedAt` both set
to the current time, and returns the persisted Post. -/
def createPost (db : DB) (fields : PostFields) :
    Except ServiceError (Post × DB) :=
  match fields.title with
  | none => .error (.validationError titleRequiredMessage)
  | some t =>
    if t = "" then .error (.validationError titleRequiredMessage)
    else
      let p : Post :=
        { id := db.nextId
          title := t
          author := fields.author
          contents := fields.contents
          tags := fields.tags.getD []
          createdAt := db.clock
          updatedAt := db.clock }
      .ok (p, { posts := db.posts ++ [p]
                nextId := db.nextId + 1
                clock := db.clock + 1 })

/-- Sort direction option of `listAllPosts`. -/
inductive SortOrder where
  | ascending
  | descending
deriving Repr, DecidableEq

/-- Sort field option of `listAllPosts` (a timestamp field name). -/
inductive SortField where
  | createdAt
  | updatedAt
deriving Repr, DecidableEq

/-- Sort configuration accepted by `listAllPosts`. -/
structure ListOptions where
  sortBy : SortField
  sortOrder : SortOrder
deriving Repr, DecidableEq

/-- The defaults applied when `listAllPosts` is called with no options:
sort by `createdAt`, descending. -/
def defaultListOptions : ListOptions :=
  { sortBy := SortField.createdAt, sortOrder := SortOrder.descending }

/-- The timestamp a sort field selects from a post. -/
def sortKey (f : SortField) (p : Post) : Nat :=
  match f with
  | SortField.createdAt => p.createdAt
  | SortField.updatedAt => p.updatedAt

/-- Modelled from the spec: `listAllPosts(options)` of
`src/services/post.js` (absent from the snapshot).  Returns all posts,
sorted by the configured field in the configured direction. -/
def listAllPosts (db : DB) (options : ListOptions) : List Post :=
  match options.sortOrder with
  | SortOrder.ascending =>
      db.posts.mergeSort (fun a b => sortKey options.sortBy a ≤ sortKey options.sortBy b)
  | SortOrder.descending =>
      db.posts.mergeSort (fun a b => sortKey options.sortBy b ≤ sortKey options.sortBy a)

/-- Modelled from the spec: `listPostsByAuthor(author)` of
`src/services/post.js` (absent from the snapshot).  Returns all posts
whose `author` field exactly equals the given value (case-sensitive
exact match). -/
def listPostsByAuthor (db : DB) (author : String) : List Post :=
  db.posts.filter (fun p => p.author == some author)

/-- Modelled from the spec: `listPostsByTag(tag)` of
`src/services/post.js` (absent from the snapshot).  Returns all posts
whose `tags` sequence contains the given value. -/
def listPostsByTag (db : DB) (tag : String) : List Post :=
  db.posts.filter (fun p => p.tags.contains tag)

/-- Modelled from the spec: `getPostById(id)` of `src/services/post.js`
(absent from the snapshot).  Returns the post with the given id, or
`none` if no such id exists. -/
def getPostById (db : DB) (id : Nat) : Option Post :=
  db.posts.find? (fun p => p.id == id)

/-- Applies a partial field set to a post at time `now`: every given
field is overwritten, every unspecified field (including `createdAt`)
keeps its previous value, and `updatedAt` is set to `now`.  No
validation is re-run (matching the observed behaviour of partial
update). -/
def applyFields (p : Post) (fields : PostFields) (now : Nat) : Post :=
  { p with
    title := fields.title.getD p.title
    author := match fields.author with | none => p.author | some a => some a
    contents := match fields.contents with | none => p.contents | some c => some c
    tags := fields.tags.getD p.tags
    updatedAt := now }

/-- Modelled from the spec: `updatePost(id, partialFields)` of
`src/services/post.js` (absent from the snapshot).  Applies only the
given fields to the post with the given id, refreshes `updatedAt` to
the current time, and returns the updated post; returns `none` (not an
error) if the id does not exist, leaving the store unchanged. -/
def updatePost (db : DB) (id : Nat) (fields : PostFields) :
    Option Post × DB :=
  match db.posts.find? (fun p => p.id == id) with
  | none => (none, { db with clock := db.clock + 1 })
  | some p =>
      let q := applyFields p fields db.clock
      (some q,
       { db with
         posts := db.posts.map (fun r => if r.id == id then q else r)
         clock := db.clock + 1 })

/-- Result of `deletePost`: the count of records removed. -/
structure DeleteResult where
  deletedCount : Nat
deriving Repr, DecidableEq

/-- Modelled from the spec: `deletePost(id)` of `src/services/post.js`
(absent from the snapshot).  Removes the post with the given id and
returns the count of records removed; a missing id is a no-op success
with count 0, never an error. -/
def deletePost (db : DB) (id : Nat) : DeleteResult × DB :=
  ({ deletedCount := (db.posts.filter (fun p => p.id == id)).length },
   { db with
     posts := db.posts.filter (fun p => p.id != id)
     clock := db.clock + 1 })

/-- Well-formedness of the store state: identifiers are pairwise
distinct and below the fresh-id counter (identifier uniqueness is
guaranteed by the storage layer), and every stored timestamp lies
strictly before the current clock (stored posts were written by earlier
operations). -/
def WellFormed (db : DB) : Prop :=
  db.posts.Pairwise (fun p q => p.id ≠ q.id) ∧
  (∀ p ∈ db.posts, p.id < db.nextId) ∧
  (∀ p ∈ db.posts, p.createdAt ≤ p.updatedAt ∧ p.updatedAt < db.clock)

instance (db : DB) : Decidable (WellFormed db) := by
  unfold WellFormed
  infer_instance

/-- The documented data-model invariant on persisted posts: `title` is
non-empty and `createdAt` is at most `updatedAt`. -/
def PostInvariant (db : DB) : Prop :=
  ∀ p ∈ db.posts, p.title ≠ "" ∧ p.createdAt ≤ p.updatedAt

instance (db : DB) : Decidable (PostInvariant db) := by
  unfold PostInvariant
  infer_instance

/-- A fixture post used to instantiate theorems at concrete inputs. -/
def samplePost : Post :=
  { id := 0, title := "Endurance", author := some "Unknown"
    contents := none, tags := ["good"], createdAt := 0, updatedAt := 0 }

/-- A fixture store holding one post, used to instantiate theorems at
concrete inputs. -/
def sampleDB : DB :=
  { posts := [samplePost], nextId := 1, clock := 1 }

theorem find?_id_of_unique (l : List Post)
    (hl : l.Pairwise (fun p q => p.id ≠ q.id))
    (p : Post) (i : Nat) (hp : p ∈ l) (hid : p.id = i) :
    l.find? (fun q => q.id == i) = some p := by
  induction l with
  | nil => cases hp
  | cons a l ih =>
    rw [List.pairwise_cons] at hl
    rcases List.mem_cons.mp hp with rfl | hp'
    · exact List.find?_cons_of_pos _ (by simp [hid])
    · have ha : (a.id == i) = false := by
        have hne : a.id ≠ p.id := hl.1 p hp'
        simp [hid ▸ hne]
      rw [List.find?_cons_of_neg _ (by simp [ha])]
      exact ih hl.2 hp'

theorem length_filter_id_le_one (l : List Post)
    (hl : l.Pairwise (fun p q => p.id ≠ q.id)) (i : Nat) :
    (l.filter (fun p => p.id == i)).length ≤ 1 := by
  induction l with
  | nil => simp
  | cons a l ih =>
    rw [List.pairwise_cons] at hl
    by_cases h : a.id = i
    · have hf : l.filter (fun p => p.id == i) = [] := by
        rw [List.filter_eq_nil_iff]
        intro p hp
        have : a.id ≠ p.id := hl.1 p hp
        simp
        omega
      simp [List.filter_cons, h, hf]
    · simp [List.filter_cons, h]
      exact ih hl.2

/-- C1: for every field set whose title is present and non-empty,
`createPost` succeeds, persists exactly one new Post (appended to the
store), and returns it with the system-generated id, the caller-supplied
field values, and `createdAt = updatedAt` at creation time. -/
theorem createPost_success (db : DB) (fields : PostFields) (t : String)
    (ht : fields.title = some t) (hne : t ≠ "") :
    ∃ p db', createPost db fields = .ok (p, db') ∧
      db'.posts = db.posts ++ [p] ∧
      p.id = db.nextId ∧
      p.createdAt = p.updatedAt ∧
      p.title = t ∧ p.author = fields.author ∧
      p.contents = fields.contents ∧ p.tags = fields.tags.getD [] := by
  have h : createPost db fields = .ok
      ({ id := db.nextId, title := t, author := fields.author
         contents := fields.contents, tags := fields.tags.getD []
         createdAt := db.clock, updatedAt := db.clock },
       { posts := db.posts ++
           [{ id := db.nextId, title := t, author := fields.author
              contents := fields.contents, tags := fields.tags.getD []
              createdAt := db.clock, updatedAt := db.clock }]
         nextId := db.nextId + 1, clock := db.clock + 1 }) := by
    simp [createPost, ht, hne]
  exact ⟨_, _, h, rfl, rfl, rfl, rfl, rfl, rfl, rfl⟩

/-- Witness for C1 at a concrete field set with a non-empty title. -/
theorem createPost_success_witness :
    ∃ p db',
      createPost sampleDB { title := some "Just Dog" } = .ok (p, db') ∧
      db'.posts = sampleDB.posts ++ [p] ∧
      p.id = sampleDB.nextId ∧
      p.createdAt = p.updatedAt ∧
      p.title = "Just Dog" ∧
      p.author = (PostFields.mk (some "Just Dog") none none none).author ∧
      p.contents = (PostFields.mk (some "Just Dog") none none none).contents ∧
      p.tags = (PostFields.mk (some "Just Dog") none none none).tags.getD [] :=
  createPost_success sampleDB { title := some "Just Dog" } "Just Dog" rfl
    (by decide)

/-- C2: for every field set whose title is absent or empty, `createPost`
fails with a ValidationError whose message references the `title` field
(it contains the fragment "`title` is required"); no success or null
outcome occurs. -/
theorem createPost_missing_title (db : DB) (fields : PostFields)
    (h : fields.title = none ∨ fields.title = some "") :
    createPost db fields =
      .error (.validationError titleRequiredMessage) ∧
    ∃ pre suf, titleRequiredMessage = pre ++ "`title` is required" ++ suf := by
  constructor
  · rcases h with h | h <;> simp [createPost, h]
  · exact ⟨"Post validation failed: title: Path ", ".", rfl⟩

/-- Witness for C2 at a concrete field set with no title. -/
theorem createPost_missing_title_witness :
    (PostFields.mk none (some "Your Dog") none none).title = none ∧
    (createPost sampleDB { author := some "Your Dog" } =
        .error (.validationError titleRequiredMessage) ∧
      ∃ pre suf,
        titleRequiredMessage = pre ++ "`title` is required" ++ suf) :=
  ⟨rfl, createPost_missing_title sampleDB { author := some "Your Dog" }
    (Or.inl rfl)⟩

/-- C3: for every existing post id and every partial field set,
`updatePost` changes exactly the fields given and refreshes `updatedAt`;
every unspecified field, including `createdAt` and `title`, keeps its
previous value, other posts are untouched, and `updatedAt` strictly
increases relative to its value before the update. -/
theorem updatePost_frame (db : DB) (i : Nat) (fields : PostFields)
    (p : Post) (hwf : WellFormed db) (hp : p ∈ db.posts)
    (hid : p.id = i) :
    ∃ q, updatePost db i fields =
        (some q,
         { db with
           posts := db.posts.map (fun r => if r.id == i then q else r)
           clock := db.clock + 1 }) ∧
      q.id = p.id ∧ q.createdAt = p.createdAt ∧
      (fields.title = none → q.title = p.title) ∧
      (∀ t, fields.title = some t → q.title = t) ∧
      (fields.author = none → q.author = p.author) ∧
      (∀ a, fields.author = some a → q.author = some a) ∧
      (fields.contents = none → q.contents = p.contents) ∧
      (∀ c, fields.contents = some c → q.contents = some c) ∧
      (fields.tags = none → q.tags = p.tags) ∧
      (∀ ts, fields.tags = some ts → q.tags = ts) ∧
      p.updatedAt < q.updatedAt := by
  have hfind := find?_id_of_unique db.posts hwf.1 p i hp hid
  refine ⟨applyFields p fields db.clock, ?_, rfl, rfl,
    ?_, ?_, ?_, ?_, ?_, ?_, ?_, ?_, ?_⟩
  · simp [updatePost, hfind]
  · intro h; simp [applyFields, h]
  · intro t h; simp [applyFields, h]
  · intro h; simp [applyFields, h]
  · intro a h; simp [applyFields, h]
  · intro h; simp [applyFields, h]
  · intro c h; simp [applyFields, h]
  · intro h; simp [applyFields, h]
  · intro ts h; simp [applyFields, h]
  · have := (hwf.2.2 p hp).2
    simpa [applyFields] using this

/-- Witness for C3: updating the author of the sample post in the
sample store. -/
theorem updatePost_frame_witness :
    WellFormed sampleDB ∧ samplePost ∈ sampleDB.posts ∧
    (∃ q, updatePost sampleDB 0 { author := some "New Author" } =
        (some q,
         { sampleDB with
           posts := sampleDB.posts.map
             (fun r => if r.id == 0 then q else r)
           clock := sampleDB.clock + 1 }) ∧
      q.id = samplePost.id ∧ q.createdAt = samplePost.createdAt ∧
      ((PostFields.mk none (some "New Author") none none).title = none →
        q.title = samplePost.title) ∧
      (∀ t, (PostFields.mk none (some "New Author") none none).title =
          some t → q.title = t) ∧
      ((PostFields.mk none (some "New Author") none none).author = none →
        q.author = samplePost.author) ∧
      (∀ a, (PostFields.mk none (some "New Author") none none).author =
          some a → q.author = some a) ∧
      ((PostFields.mk none (some "New Author") none none).contents =
          none → q.contents = samplePost.contents) ∧
      (∀ c, (PostFields.mk none (some "New Author") none none).contents =
          some c → q.contents = some c) ∧
      ((PostFields.mk none (some "New Author") none none).tags = none →
        q.tags = samplePost.tags) ∧
      (∀ ts, (PostFields.mk none (some "New Author") none none).tags =
          some ts → q.tags = ts) ∧
      samplePost.updatedAt < q.updatedAt) :=
  ⟨by decide, by decide,
    updatePost_frame sampleDB 0 { author := some "New Author" }
      samplePost (by decide) (by decide) rfl⟩

/-- C4: on a syntactically valid id matching no stored post,
`getPostById` returns `none` and `updatePost` returns `none`; neither
raises an error and no stored post is changed. -/
theorem missing_id_soft (db : DB) (i : Nat) (fields : PostFields)
    (h : ∀ p ∈ db.posts, p.id ≠ i) :
    getPostById db i = none ∧
    (updatePost db i fields).1 = none ∧
    (updatePost db i fields).2.posts = db.posts := by
  have hfind : db.posts.find? (fun p => p.id == i) = none := by
    rw [List.find?_eq_none]
    intro p hp
    simp [h p hp]
  exact ⟨by simp [getPostById, hfind],
    by simp [updatePost, hfind], by simp [updatePost, hfind]⟩

/-- Witness for C4: the all-zero-style missing id 99 on the sample
store. -/
theorem missing_id_soft_witness :
    (∀ p ∈ sampleDB.posts, p.id ≠ 99) ∧
    (getPostById sampleDB 99 = none ∧
      (updatePost sampleDB 99 { author := some "Failed Author" }).1 =
        none ∧
      (updatePost sampleDB 99 { author := some "Failed Author" }).2.posts
        = sampleDB.posts) :=
  ⟨by decide,
    missing_id_soft sampleDB 99 { author := some "Failed Author" }
      (by decide)⟩

/-- C5: for every id, `deletePost` returns a removed count of 0 or 1
and never raises an error; on an id with a stored post it returns count
1 and the post becomes unfindable by `getPostById`; on an id with no
stored post it returns count 0 and leaves the store unchanged. -/
theorem deletePost_spec (db : DB) (i : Nat) (hwf : WellFormed db) :
    ((deletePost db i).1.deletedCount = 0 ∨
      (deletePost db i).1.deletedCount = 1) ∧
    ((∃ p ∈ db.posts, p.id = i) →
      (deletePost db i).1.deletedCount = 1 ∧
      getPostById (deletePost db i).2 i = none) ∧
    ((∀ p ∈ db.posts, p.id ≠ i) →
      (deletePost db i).1.deletedCount = 0 ∧
      (deletePost db i).2.posts = db.posts) := by
  have hle := length_filter_id_le_one db.posts hwf.1 i
  refine ⟨?_, ?_, ?_⟩
  · show (db.posts.filter (fun p => p.id == i)).length = 0 ∨
      (db.posts.filter (fun p => p.id == i)).length = 1
    omega
  · rintro ⟨p, hp, hpid⟩
    have hmem : p ∈ db.posts.filter (fun q => q.id == i) :=
      List.mem_filter.mpr ⟨hp, by simp [hpid]⟩
    have hpos := List.length_pos_of_mem hmem
    refine ⟨?_, ?_⟩
    · show (db.posts.filter (fun p => p.id == i)).length = 1
      omega
    · show (db.posts.filter (fun p => p.id != i)).find?
        (fun p => p.id == i) = none
      rw [List.find?_eq_none]
      intro q hq
      have hne := (List.mem_filter.mp hq).2
      simp at hne ⊢
      omega
  · intro h
    have hnil : db.posts.filter (fun p => p.id == i) = [] := by
      rw [List.filter_eq_nil_iff]
      intro p hp
      simp [h p hp]
    refine ⟨?_, ?_⟩
    · show (db.posts.filter (fun p => p.id == i)).length = 0
      rw [hnil]
      rfl
    · show db.posts.filter (fun p => p.id != i) = db.posts
      rw [List.filter_eq_self]
      intro p hp
      simp [h p hp]

/-- Witness for C5: deleting from the sample store. -/
theorem deletePost_spec_witness :
    WellFormed sampleDB ∧
    (((deletePost sampleDB 0).1.deletedCount = 0 ∨
        (deletePost sampleDB 0).1.deletedCount = 1) ∧
      ((∃ p ∈ sampleDB.posts, p.id = 0) →
        (deletePost sampleDB 0).1.deletedCount = 1 ∧
        getPostById (deletePost sampleDB 0).2 0 = none) ∧
      ((∀ p ∈ sampleDB.posts, p.id ≠ 0) →
        (deletePost sampleDB 0).1.deletedCount = 0 ∧
        (deletePost sampleDB 0).2.posts = sampleDB.posts)) :=
  ⟨by decide, deletePost_spec sampleDB 0 (by decide)⟩

theorem pairwise_mergeSort_key (l : List Post) (k : Post → Nat) :
    (l.mergeSort (fun a b => k a ≤ k b)).Pairwise
      (fun a b => k a ≤ k b) := by
  have htrans : ∀ a b c : Post,
      (fun a b => decide (k a ≤ k b)) a b →
      (fun a b => decide (k a ≤ k b)) b c →
      (fun a b => decide (k a ≤ k b)) a c := by
    intro a b c hab hbc
    simp only [decide_eq_true_eq] at *
    omega
  have htotal : ∀ a b : Post,
      ((fun a b => decide (k a ≤ k b)) a b ||
        (fun a b => decide (k a ≤ k b)) b a) = true := by
    intro a b
    simp only [Bool.or_eq_true, decide_eq_true_eq]
    omega
  have hs := @List.sorted_mergeSort Post
    (fun a b => decide (k a ≤ k b)) htrans htotal l
  exact hs.imp (fun h => by simpa using h)

theorem pairwise_mergeSort_key_flip (l : List Post) (k : Post → Nat) :
    (l.mergeSort (fun a b => k b ≤ k a)).Pairwise
      (fun a b => k b ≤ k a) := by
  have htrans : ∀ a b c : Post,
      (fun a b => decide (k b ≤ k a)) a b →
      (fun a b => decide (k b ≤ k a)) b c →
      (fun a b => decide (k b ≤ k a)) a c := by
    intro a b c hab hbc
    simp only [decide_eq_true_eq] at *
    omega
  have htotal : ∀ a b : Post,
      ((fun a b => decide (k b ≤ k a)) a b ||
        (fun a b => decide (k b ≤ k a)) b a) = true := by
    intro a b
    simp only [Bool.or_eq_true, decide_eq_true_eq]
    omega
  have hs := @List.sorted_mergeSort Post
    (fun a b => decide (k b ≤ k a)) htrans htotal l
  exact hs.imp (fun h => by simpa using h)

/-- C6: `listAllPosts` returns all stored posts as a finite ordered
sequence sorted by the `sortBy` key in the `sortOrder` direction, and
the defaults are `createdAt` descending. -/
theorem listAllPosts_spec (db : DB) (options : ListOptions) :
    List.Perm (listAllPosts db options) db.posts ∧
    (listAllPosts db options).Pairwise (fun a b =>
      match options.sortOrder with
      | SortOrder.ascending =>
          sortKey options.sortBy a ≤ sortKey options.sortBy b
      | SortOrder.descending =>
          sortKey options.sortBy b ≤ sortKey options.sortBy a) ∧
    defaultListOptions =
      { sortBy := SortField.createdAt
        sortOrder := SortOrder.descending } := by
  refine ⟨?_, ?_, rfl⟩
  · cases h : options.sortOrder <;>
      simp [listAllPosts, h, List.mergeSort_perm]
  · cases h : options.sortOrder
    · have hp := pairwise_mergeSort_key db.posts (sortKey options.sortBy)
      simpa [listAllPosts, h] using hp
    · have hp :=
        pairwise_mergeSort_key_flip db.posts (sortKey options.sortBy)
      simpa [listAllPosts, h] using hp

/-- C7: at the failing input — updating an existing post with an empty
title — the store ends holding a persisted post whose title is empty,
violating the documented invariant that `title` is always non-empty for
any persisted Post (partial update re-runs no validation).  The
timestamp half of the invariant, `createdAt ≤ updatedAt`, still holds
at that input. -/
theorem updatePost_empty_title_breaks_invariant :
    PostInvariant sampleDB ∧
    ¬ PostInvariant (updatePost sampleDB 0 { title := some "" }).2 ∧
    (∃ p ∈ (updatePost sampleDB 0 { title := some "" }).2.posts,
      p.title = "" ∧ p.createdAt ≤ p.updatedAt) := by
  decide

/-- C8: `listPostsByAuthor` returns exactly the stored posts whose
`author` field equals the given value under case-sensitive (exact)
string comparison, preserving store order, and returns the empty
sequence when no stored post matches. -/
theorem listPostsByAuthor_spec (db : DB) (a : String) :
    (∀ p, p ∈ listPostsByAuthor db a ↔
      p ∈ db.posts ∧ p.author = some a) ∧
    List.Sublist (listPostsByAuthor db a) db.posts ∧
    ((∀ p ∈ db.posts, p.author ≠ some a) →
      listPostsByAuthor db a = []) := by
  refine ⟨?_, ?_, ?_⟩
  · intro p
    simp [listPostsByAuthor, List.mem_filter]
  · exact List.filter_sublist _
  · intro h
    rw [listPostsByAuthor, List.filter_eq_nil_iff]
    intro p hp
    simp [h p hp]

/-- C9: `listPostsByTag` returns exactly the stored posts whose `tags`
sequence contains the given value as an element, preserving store
order, and returns the empty sequence when no stored post's tags
contain it. -/
theorem listPostsByTag_spec (db : DB) (tg : String) :
    (∀ p, p ∈ listPostsByTag db tg ↔ p ∈ db.posts ∧ tg ∈ p.tags) ∧
    List.Sublist (listPostsByTag db tg) db.posts ∧
    ((∀ p ∈ db.posts, tg ∉ p.tags) → listPostsByTag db tg = []) := by
  refine ⟨?_, ?_, ?_⟩
  · intro p
    simp [listPostsByTag, List.mem_filter]
  · exact List.filter_sublist _
  · intro h
    rw [listPostsByTag, List.filter_eq_nil_iff]
    intro p hp
    simp [h p hp]

/-- C10: create/get round-trip — whenever `createPost` succeeds
returning a post `p` and a new store, `getPostById` on `p.id` in that
store immediately returns `p` itself, carrying the caller-supplied
field values. -/
theorem create_get_roundtrip (db : DB) (fields : PostFields) (p : Post)
    (db' : DB) (hwf : WellFormed db)
    (h : createPost db fields = .ok (p, db')) :
    getPostById db' p.id = some p ∧
    (∀ t, fields.title = some t → p.title = t) ∧
    p.author = fields.author ∧ p.contents = fields.contents ∧
    p.tags = fields.tags.getD [] := by
  rcases ht : fields.title with _ | t
  · simp [createPost, ht] at h
  · by_cases he : t = "" <;> simp [createPost, ht, he] at h
    obtain ⟨hp, hdb⟩ := h
    subst hdb
    refine ⟨?_, ?_, ?_, ?_, ?_⟩
    · show (db.posts ++ _).find? (fun q => q.id == p.id) = some p
      rw [List.find?_append]
      have h1 : db.posts.find? (fun q => q.id == p.id) = none := by
        rw [List.find?_eq_none]
        intro q hq
        have := hwf.2.1 q hq
        simp [← hp]
        omega
      rw [h1]
      simp [← hp]
    · intro s hs
      cases hs
      simp [← hp]
    · simp [← hp]
    · simp [← hp]
    · simp [← hp]

/-- Witness for C10: the round-trip at a concrete creation on the
sample store. -/
theorem create_get_roundtrip_witness :
    WellFormed sampleDB ∧
    (getPostById
        { posts := sampleDB.posts ++
            [{ id := 1, title := "Hyperion", author := some "Dan Simmons"
               contents := none, tags := ["sci-fi"], createdAt := 1
               updatedAt := 1 }]
          nextId := 2, clock := 2 } 1 =
      some { id := 1, title := "Hyperion", author := some "Dan Simmons"
             contents := none, tags := ["sci-fi"], createdAt := 1
             updatedAt := 1 } ∧
    (∀ t, (PostFields.mk (some "Hyperion") (some "Dan Simmons") none
        (some ["sci-fi"])).title = some t →
      Post.title { id := 1, title := "Hyperion"
                   author := some "Dan Simmons", contents := none
                   tags := ["sci-fi"], createdAt := 1
                   updatedAt := 1 } = t) ∧
    Post.author { id := 1, title := "Hyperion"
                  author := some "Dan Simmons", contents := none
                  tags := ["sci-fi"], createdAt := 1, updatedAt := 1 } =
      (PostFields.mk (some "Hyperion") (some "Dan Simmons") none
        (some ["sci-fi"])).author ∧
    Post.contents { id := 1, title := "Hyperion"
                    author := some "Dan Simmons", contents := none
                    tags := ["sci-fi"], createdAt := 1
                    updatedAt := 1 } =
      (PostFields.mk (some "Hyperion") (some "Dan Simmons") none
        (some ["sci-fi"])).contents ∧
    Post.tags { id := 1, title := "Hyperion"
                author := some "Dan Simmons", contents := none
                tags := ["sci-fi"], createdAt := 1, updatedAt := 1 } =
      (PostFields.mk (some "Hyperion") (some "Dan Simmons") none
        (some ["sci-fi"])).tags.getD []) :=
  ⟨by decide,
    create_get_roundtrip sampleDB
      (PostFields.mk (some "Hyperion") (some "Dan Simmons") none
        (some ["sci-fi"]))
      { id := 1, title := "Hyperion", author := some "Dan Simmons"
        contents := none, tags := ["sci-fi"], createdAt := 1
        updatedAt := 1 }
      { posts := sampleDB.posts ++
          [{ id := 1, title := "Hyperion", author := some "Dan Simmons"
             contents := none, tags := ["sci-fi"], createdAt := 1
             updatedAt := 1 }]
        nextId := 2, clock := 2 }
      (by decide) (by rfl)⟩

end BlogService
